import Mathlib

/-!
Shallow embedding of `src/slider.ts` (repository `cfw-xstools`).

The core function `findGapWithHighAccuracy` scans a grayscale intensity
grid for the left edge of a slider-captcha gap.  Image decoding (Jimp,
base64) is an external collaborator: the embedding starts from the decoded
grayscale grid, modelled as a function `Nat → Nat → Nat` giving the
brightness (the `r` channel after `greyscale()`) of pixel `(x, y)`.

The HTTP `handler` is embedded over an abstract request record, with the
JavaScript truthiness tests on the three body fields made explicit.
-/

namespace Slider

/-- Brightness grid: `grid x y` is the grayscale intensity of pixel `(x, y)`.
Corresponds to `intToRGBA(bgImg.getPixelColor(x, y)).r` after `greyscale()`. -/
abbrev Grid := Nat → Nat → Nat

/-- Column score for candidate column `x`: the inner `y` loop of
`findGapWithHighAccuracy` (src/slider.ts lines 40-58).  `y` runs from
`sliderY` to `sliderY + sH - 1`; rows with `y >= bgH` are skipped
(`continue`); `diff = prev - curr` is added exactly when `diff > 15`. -/
def columnScore (grid : Grid) (bgH sliderY sH : Nat) (x : Nat) : Int :=
  (List.range sH).foldl
    (fun currentColumnScore i =>
      let y := sliderY + i
      if bgH ≤ y then currentColumnScore
      else
        let prevPixel : Int := grid (x - 1) y
        let currPixel : Int := grid x y
        let diff := prevPixel - currPixel
        if 15 < diff then currentColumnScore + diff else currentColumnScore)
    0

/-- The horizontal scan window `[sW + 5, bgW - sW - 5)` as a list of column
indices, in scan order (src/slider.ts lines 26-28 and the `for` loop on
line 35).  `endX` is computed over the integers, as in JavaScript: when
`bgW - sW - 5 ≤ sW + 5` the loop body never runs and the list is empty. -/
def scanWindow (bgW sW : Nat) : List Nat :=
  (List.range (((bgW : Int) - (sW : Int) - 5) - ((sW : Int) + 5)).toNat).map
    (fun i => sW + 5 + i)

/-- One step of the best-column tracking (src/slider.ts lines 60-66): the
state is `(maxScore, bestX)` and is replaced only on strict improvement
`currentColumnScore > maxScore`. -/
def scanStep (score : Nat → Int) (st : Int × Nat) (x : Nat) : Int × Nat :=
  if st.1 < score x then (score x, x) else st

/-- The core of `findGapWithHighAccuracy` (src/slider.ts lines 10-72),
starting from the decoded grayscale grid.  `maxScore` starts at `-1` and
`bestX` at `0`; the function returns the final `bestX`. -/
def findGapWithHighAccuracy (grid : Grid) (bgW bgH sW sH sliderY : Nat) : Nat :=
  ((scanWindow bgW sW).foldl (scanStep (columnScore grid bgH sliderY sH)) (-1, 0)).2

/-- Membership in the scan window is exactly `sW + 5 ≤ x < bgW - sW - 5`
(the upper bound read over `Int`, as in the JavaScript loop condition). -/
lemma mem_scanWindow {bgW sW x : Nat} :
    x ∈ scanWindow bgW sW ↔ sW + 5 ≤ x ∧ (x : Int) < (bgW : Int) - (sW : Int) - 5 := by
  simp only [scanWindow, List.mem_map, List.mem_range]
  constructor
  · rintro ⟨i, hi, rfl⟩
    omega
  · rintro ⟨h1, h2⟩
    exact ⟨x - (sW + 5), by omega, by omega⟩

/-- The scan window is nonempty exactly when `sW + 5 < bgW - sW - 5`. -/
lemma scanWindow_ne_nil_iff {bgW sW : Nat} :
    scanWindow bgW sW ≠ [] ↔ ((sW : Int) + 5 < (bgW : Int) - (sW : Int) - 5) := by
  constructor
  · intro h
    rcases List.exists_mem_of_ne_nil _ h with ⟨x, hx⟩
    rcases mem_scanWindow.mp hx with ⟨h1, h2⟩
    omega
  · intro h hnil
    have hm : sW + 5 ∈ scanWindow bgW sW := mem_scanWindow.mpr ⟨le_refl _, by omega⟩
    rw [hnil] at hm
    exact absurd hm (List.not_mem_nil _)

/-- When the window is nonempty, its first candidate `sW + 5` belongs to it. -/
lemma startX_mem_scanWindow {bgW sW : Nat} (h : scanWindow bgW sW ≠ []) :
    sW + 5 ∈ scanWindow bgW sW :=
  mem_scanWindow.mpr ⟨le_refl _, by have := scanWindow_ne_nil_iff.mp h; omega⟩

/-- The scan window is strictly increasing. -/
lemma scanWindow_pairwise (bgW sW : Nat) :
    List.Pairwise (· < ·) (scanWindow bgW sW) := by
  unfold scanWindow
  refine List.Pairwise.map _ (fun a b h => ?_) (List.pairwise_lt_range _)
  omega

/-- Every column score is nonnegative: only strictly positive diffs are
accumulated. -/
lemma columnScore_nonneg (grid : Grid) (bgH sliderY sH x : Nat) :
    0 ≤ columnScore grid bgH sliderY sH x := by
  unfold columnScore
  generalize List.range sH = l
  suffices h : ∀ (l : List Nat) (a : Int), 0 ≤ a →
      0 ≤ l.foldl
        (fun currentColumnScore i =>
          let y := sliderY + i
          if bgH ≤ y then currentColumnScore
          else
            let prevPixel : Int := grid (x - 1) y
            let currPixel : Int := grid x y
            let diff := prevPixel - currPixel
            if 15 < diff then currentColumnScore + diff else currentColumnScore)
        a from h l 0 le_rfl
  intro l
  induction l with
  | nil => intro a ha; simpa using ha
  | cons i t ih =>
    intro a ha
    rw [List.foldl_cons]
    apply ih
    dsimp only
    split
    · exact ha
    · split
      · rename_i hd
        omega
      · exact ha

/-- Invariant of the best-column fold over a strictly increasing candidate
list, for an arbitrary starting state `(m, b)`: the final tracked score
dominates `m` and every candidate's score, and either the state never
changed, or the final `bestX` is a candidate attaining the final score,
that score strictly exceeds `m`, and every candidate strictly to the left
of `bestX` scores strictly below it (ties keep the earliest candidate). -/
lemma foldl_scanStep_spec (score : Nat → Int) (xs : List Nat) :
    ∀ (m : Int) (b : Nat), List.Pairwise (· < ·) xs →
    m ≤ (xs.foldl (scanStep score) (m, b)).1 ∧
    (∀ x ∈ xs, score x ≤ (xs.foldl (scanStep score) (m, b)).1) ∧
    (xs.foldl (scanStep score) (m, b) = (m, b) ∨
      ((xs.foldl (scanStep score) (m, b)).2 ∈ xs ∧
        score (xs.foldl (scanStep score) (m, b)).2 = (xs.foldl (scanStep score) (m, b)).1 ∧
        m < (xs.foldl (scanStep score) (m, b)).1 ∧
        ∀ x ∈ xs, x < (xs.foldl (scanStep score) (m, b)).2 →
          score x < (xs.foldl (scanStep score) (m, b)).1)) := by
  induction xs with
  | nil => intro m b _; simp
  | cons a t ih =>
    intro m b hpw
    have hpw_t : List.Pairwise (· < ·) t := hpw.tail
    have ha : ∀ x ∈ t, a < x := (List.pairwise_cons.mp hpw).1
    rw [List.foldl_cons]
    by_cases hc : m < score a
    · rw [show scanStep score (m, b) a = (score a, a) from by simp [scanStep, hc]]
      obtain ⟨h1, h2, h3⟩ := ih (score a) a hpw_t
      refine ⟨le_trans (le_of_lt hc) h1, ?_, ?_⟩
      · intro x hx
        rcases List.mem_cons.mp hx with rfl | hx
        · exact h1
        · exact h2 x hx
      · right
        rcases h3 with heq | ⟨hmem, hsc, hlt, hleft⟩
        · rw [heq]
          refine ⟨List.mem_cons_self a t, rfl, hc, ?_⟩
          intro x hx hxa
          rcases List.mem_cons.mp hx with rfl | hx
          · omega
          · exact absurd hxa (not_lt.mpr (le_of_lt (ha x hx)))
        · refine ⟨List.mem_cons_of_mem a hmem, hsc, lt_trans hc hlt, ?_⟩
          intro x hx hxr
          rcases List.mem_cons.mp hx with rfl | hx
          · exact hlt
          · exact hleft x hx hxr
    · rw [show scanStep score (m, b) a = (m, b) from by simp [scanStep, hc]]
      obtain ⟨h1, h2, h3⟩ := ih m b hpw_t
      refine ⟨h1, ?_, ?_⟩
      · intro x hx
        rcases List.mem_cons.mp hx with rfl | hx
        · exact le_trans (not_lt.mp hc) h1
        · exact h2 x hx
      · rcases h3 with heq | ⟨hmem, hsc, hlt, hleft⟩
        · exact Or.inl heq
        · right
          refine ⟨List.mem_cons_of_mem a hmem, hsc, hlt, ?_⟩
          intro x hx hxr
          rcases List.mem_cons.mp hx with rfl | hx
          · exact lt_of_le_of_lt (not_lt.mp hc) hlt
          · exact hleft x hx hxr

/-- When the scan window is empty the loop body never runs and the initial
`bestX = 0` is returned. -/
lemma findGap_empty (grid : Grid) (bgW bgH sW sH sliderY : Nat)
    (h : scanWindow bgW sW = []) :
    findGapWithHighAccuracy grid bgW bgH sW sH sliderY = 0 := by
  unfold findGapWithHighAccuracy
  rw [h]
  rfl

/-- When the scan window is nonempty, the returned column is a member of the
window, its score is maximal over the window, and every window column
strictly to its left scores strictly less. -/
lemma findGap_mem_max (grid : Grid) (bgW bgH sW sH sliderY : Nat)
    (h : scanWindow bgW sW ≠ []) :
    findGapWithHighAccuracy grid bgW bgH sW sH sliderY ∈ scanWindow bgW sW ∧
    (∀ x ∈ scanWindow bgW sW, columnScore grid bgH sliderY sH x ≤
      columnScore grid bgH sliderY sH (findGapWithHighAccuracy grid bgW bgH sW sH sliderY)) ∧
    (∀ x ∈ scanWindow bgW sW,
      x < findGapWithHighAccuracy grid bgW bgH sW sH sliderY →
      columnScore grid bgH sliderY sH x <
        columnScore grid bgH sliderY sH (findGapWithHighAccuracy grid bgW bgH sW sH sliderY)) := by
  obtain ⟨h1, h2, h3⟩ :=
    foldl_scanStep_spec (columnScore grid bgH sliderY sH) (scanWindow bgW sW) (-1) 0
      (scanWindow_pairwise bgW sW)
  rcases h3 with heq | ⟨hmem, hsc, _, hleft⟩
  · exfalso
    have hs := h2 (sW + 5) (startX_mem_scanWindow h)
    rw [heq] at hs
    have := columnScore_nonneg grid bgH sliderY sH (sW + 5)
    omega
  · refine ⟨hmem, ?_, ?_⟩
    · intro x hx
      have := h2 x hx
      unfold findGapWithHighAccuracy
      omega
    · intro x hx hlt2
      have := hleft x hx hlt2
      unfold findGapWithHighAccuracy
      omega

/-- When the scan window is nonempty and every window column scores `0`, the
returned column is the first scanned one, `sW + 5` (the score `0` of the
first candidate strictly beats the initial `maxScore = -1`). -/
lemma findGap_all_zero (grid : Grid) (bgW bgH sW sH sliderY : Nat)
    (h : scanWindow bgW sW ≠ [])
    (hz : ∀ x ∈ scanWindow bgW sW, columnScore grid bgH sliderY sH x = 0) :
    findGapWithHighAccuracy grid bgW bgH sW sH sliderY = sW + 5 := by
  obtain ⟨hmem, _, hleft⟩ := findGap_mem_max grid bgW bgH sW sH sliderY h
  have hstart := startX_mem_scanWindow h
  rcases Nat.lt_or_ge (sW + 5) (findGapWithHighAccuracy grid bgW bgH sW sH sliderY) with hlt | hge
  · exfalso
    have := hleft (sW + 5) hstart hlt
    rw [hz _ hstart, hz _ hmem] at this
    exact lt_irrefl 0 this
  · have := (mem_scanWindow.mp hmem).1
    omega

/-- Contribution of a single row `y` to the score of column `x`: `0` for an
out-of-bounds row, otherwise `diff` when `diff > 15` and `0` otherwise. -/
def rowContrib (grid : Grid) (bgH x y : Nat) : Int :=
  if bgH ≤ y then 0
  else
    let prevPixel : Int := grid (x - 1) y
    let currPixel : Int := grid x y
    let diff := prevPixel - currPixel
    if 15 < diff then diff else 0

/-- Peeling the last row off the inner loop. -/
lemma columnScore_succ (grid : Grid) (bgH sliderY n x : Nat) :
    columnScore grid bgH sliderY (n + 1) x =
      columnScore grid bgH sliderY n x + rowContrib grid bgH x (sliderY + n) := by
  unfold columnScore rowContrib
  rw [List.range_succ, List.foldl_append, List.foldl_cons, List.foldl_nil]
  dsimp only
  by_cases h : bgH ≤ sliderY + n
  · rw [if_pos h, if_pos h, add_zero]
  · rw [if_neg h, if_neg h]
    by_cases h2 : (15 : Int) < (grid (x - 1) (sliderY + n) : Int) - (grid x (sliderY + n) : Int)
    · rw [if_pos h2, if_pos h2]
    · rw [if_neg h2, if_neg h2, add_zero]

/-- Modelled from the spec sentence for the column score: the sum, over rows
`y` in `[sliderY, sliderY + sH)` with `y < bgH`, of
`diff = intensity(x-1, y) - intensity(x, y)`, where a row contributes `diff`
exactly when `diff > 15` and contributes nothing otherwise. -/
def specColumnScore (grid : Grid) (bgH sliderY sH x : Nat) : Int :=
  Finset.sum ((Finset.Ico sliderY (sliderY + sH)).filter (fun y => y < bgH))
    (fun y =>
      let diff : Int := (grid (x - 1) y : Int) - (grid x y : Int)
      if 15 < diff then diff else 0)

/-- The spec-side sum, unfolded to a sum over the unfiltered band. -/
lemma specColumnScore_eq_sum_Ico (grid : Grid) (bgH sliderY sH x : Nat) :
    specColumnScore grid bgH sliderY sH x =
      Finset.sum (Finset.Ico sliderY (sliderY + sH)) (rowContrib grid bgH x) := by
  unfold specColumnScore
  rw [Finset.sum_filter]
  refine Finset.sum_congr rfl (fun y _ => ?_)
  unfold rowContrib
  by_cases h : y < bgH
  · rw [if_pos h, if_neg (show ¬ bgH ≤ y by omega)]
  · rw [if_neg h, if_pos (show bgH ≤ y by omega)]

/-- The inner loop computes exactly the sum of the per-row contributions
over the vertical band. -/
lemma columnScore_eq_sum_Ico (grid : Grid) (bgH sliderY sH x : Nat) :
    columnScore grid bgH sliderY sH x =
      Finset.sum (Finset.Ico sliderY (sliderY + sH)) (rowContrib grid bgH x) := by
  induction sH with
  | zero => simp [columnScore]
  | succ n ih =>
    rw [columnScore_succ, ih, show sliderY + (n + 1) = (sliderY + n) + 1 from rfl,
      Finset.sum_Ico_succ_top (Nat.le_add_right sliderY n)]

/-- A row contribution only reads the grid at its own (in-bounds) row, so two
grids agreeing on all rows `< bgH` give equal contributions. -/
lemma rowContrib_congr {g₁ g₂ : Grid} {bgH : Nat}
    (hagree : ∀ x y, y < bgH → g₁ x y = g₂ x y) (x y : Nat) :
    rowContrib g₁ bgH x y = rowContrib g₂ bgH x y := by
  unfold rowContrib
  by_cases h : bgH ≤ y
  · rw [if_pos h, if_pos h]
  · rw [if_neg h, if_neg h]
    rw [hagree (x - 1) y (by omega), hagree x y (by omega)]

/-- Column scores, and hence the whole scan, only read in-bounds rows. -/
lemma columnScore_congr {g₁ g₂ : Grid} {bgH : Nat}
    (hagree : ∀ x y, y < bgH → g₁ x y = g₂ x y) (sliderY sH x : Nat) :
    columnScore g₁ bgH sliderY sH x = columnScore g₂ bgH sliderY sH x := by
  rw [columnScore_eq_sum_Ico, columnScore_eq_sum_Ico]
  exact Finset.sum_congr rfl (fun y _ => rowContrib_congr hagree x y)

/-- The final result only reads in-bounds rows of the grid. -/
lemma findGap_congr {g₁ g₂ : Grid} {bgH : Nat}
    (hagree : ∀ x y, y < bgH → g₁ x y = g₂ x y) (bgW sW sH sliderY : Nat) :
    findGapWithHighAccuracy g₁ bgW bgH sW sH sliderY =
      findGapWithHighAccuracy g₂ bgW bgH sW sH sliderY := by
  unfold findGapWithHighAccuracy
  have hs : columnScore g₁ bgH sliderY sH = columnScore g₂ bgH sliderY sH :=
    funext (fun x => columnScore_congr hagree sliderY sH x)
  rw [hs]

/-- Scenario grid of §8: a 100×50 image, uniform brightness 200 everywhere
except columns 60..79 (the simulated gap) at brightness 60. -/
def scenarioGrid : Grid := fun x _ => if 60 ≤ x ∧ x ≤ 79 then 60 else 200

/-- Scenario grid with a single-pixel noise speck of brightness 0 at column
30, row 10. -/
def noisyGrid : Grid := fun x y => if x = 30 ∧ y = 10 then 0 else scenarioGrid x y

/-- A parsed request body for the slider endpoint, together with the HTTP
method.  Each body field is `none` when absent (JavaScript `undefined`). -/
structure SliderRequest where
  method : String
  bgBase64 : Option String
  sliderBase64 : Option String
  sliderY : Option Int

/-- JavaScript truthiness test `!field` for an optional string field: falsy
exactly when the field is absent or the empty string. -/
def jsStrFalsy : Option String → Bool
  | none => true
  | some s => s = ""

/-- JavaScript truthiness test `!field` for an optional number field: falsy
exactly when the field is absent or equal to `0`. -/
def jsNumFalsy : Option Int → Bool
  | none => true
  | some n => n = 0

/-- The possible responses of `handler` (src/slider.ts lines 74-90):
405 Method Not Allowed, one of the 400 Missing Parameter responses (tagged
by the parameter name), or 200 with the located `x`. -/
inductive HandlerResponse where
  | methodNotAllowed
  | missingParam (name : String)
  | ok (x : Nat)
deriving DecidableEq

/-- The fetch handler (src/slider.ts lines 74-90): the method check and the
three falsy-rejection guards in source order, then the call to the core.
The core call (base64 decoding, Jimp, and `findGapWithHighAccuracy`) is
abstracted as `locate`. -/
def handler (locate : String → String → Int → Nat) (req : SliderRequest) :
    HandlerResponse :=
  if req.method ≠ "POST" then .methodNotAllowed
  else if jsStrFalsy req.bgBase64 then .missingParam "bgBase64"
  else if jsStrFalsy req.sliderBase64 then .missingParam "sliderBase64"
  else if jsNumFalsy req.sliderY then .missingParam "sliderY"
  else .ok (locate (req.bgBase64.getD "") (req.sliderBase64.getD "") (req.sliderY.getD 0))

/-! ### Claim theorems -/

/-- C1 (counterexample): on a uniform 20×5 grid with `sW = 2`, `sH = 3`,
`sliderY = 0` the window `[7, 13)` is nonempty, every column scores `0`,
and the function returns `7`, not the claimed default `0`. -/
theorem allZero_default_counterexample :
    scanWindow 20 2 ≠ [] ∧
    (∀ x ∈ scanWindow 20 2, columnScore (fun _ _ => 200) 5 0 3 x = 0) ∧
    findGapWithHighAccuracy (fun _ _ => 200) 20 5 2 3 0 = 7 ∧
    findGapWithHighAccuracy (fun _ _ => 200) 20 5 2 3 0 ≠ 0 := by
  refine ⟨by decide, by decide, by decide, by decide⟩

/-- C1 (amended): if the search window is empty the function returns `0`
and raises no error; if the window is nonempty but every candidate column
scores `0`, it returns the first scanned column `sW + 5` (not `0`) and
raises no error. -/
theorem degenerate_defaults (grid : Grid) (bgW bgH sW sH sliderY : Nat) :
    (scanWindow bgW sW = [] → findGapWithHighAccuracy grid bgW bgH sW sH sliderY = 0) ∧
    (scanWindow bgW sW ≠ [] →
      (∀ x ∈ scanWindow bgW sW, columnScore grid bgH sliderY sH x = 0) →
      findGapWithHighAccuracy grid bgW bgH sW sH sliderY = sW + 5) :=
  ⟨findGap_empty grid bgW bgH sW sH sliderY,
   fun h hz => findGap_all_zero grid bgW bgH sW sH sliderY h hz⟩

/-- C1 (witness): an empty-window instance (`bgW = 10`, `sW = 5`) returning
`0`, and a nonempty all-zero instance (uniform grid, `bgW = 20`, `sW = 2`)
returning `2 + 5`. -/
theorem degenerate_defaults_witness :
    findGapWithHighAccuracy (fun _ _ => 200) 10 8 5 3 0 = 0 ∧
    findGapWithHighAccuracy (fun _ _ => 200) 20 5 2 3 0 = 2 + 5 :=
  ⟨(degenerate_defaults (fun _ _ => 200) 10 8 5 3 0).1 (by decide),
   (degenerate_defaults (fun _ _ => 200) 20 5 2 3 0).2 (by decide) (by decide)⟩

/-- C2: whenever the search window `[sW + 5, bgW - sW - 5)` is nonempty the
returned `bestX` lies within it; when the window is empty the routine
returns the documented default `0`. -/
theorem window_containment (grid : Grid) (bgW bgH sW sH sliderY : Nat) :
    (scanWindow bgW sW ≠ [] →
      sW + 5 ≤ findGapWithHighAccuracy grid bgW bgH sW sH sliderY ∧
      ((findGapWithHighAccuracy grid bgW bgH sW sH sliderY : Int) <
        (bgW : Int) - (sW : Int) - 5)) ∧
    (scanWindow bgW sW = [] → findGapWithHighAccuracy grid bgW bgH sW sH sliderY = 0) := by
  constructor
  · intro h
    exact mem_scanWindow.mp (findGap_mem_max grid bgW bgH sW sH sliderY h).1
  · exact findGap_empty grid bgW bgH sW sH sliderY

/-- C2 (witness): containment at the §8 scenario input, and the default at
an empty-window instance. -/
theorem window_containment_witness :
    (20 + 5 ≤ findGapWithHighAccuracy scenarioGrid 100 50 20 50 0 ∧
      ((findGapWithHighAccuracy scenarioGrid 100 50 20 50 0 : Int) <
        (100 : Int) - (20 : Int) - 5)) ∧
    findGapWithHighAccuracy scenarioGrid 100 50 50 50 0 = 0 :=
  ⟨(window_containment scenarioGrid 100 50 20 50 0).1 (by decide),
   (window_containment scenarioGrid 100 50 50 50 0).2 (by decide)⟩

/-- C3: when the window is nonempty and some column scores strictly more
than the initial tracked maximum `-1`, the returned `bestX` is in the
window, attains the maximum column score over the window, and is the
leftmost column doing so (ties keep the earliest column, since replacement
only occurs on strict improvement). -/
theorem leftmost_argmax (grid : Grid) (bgW bgH sW sH sliderY : Nat)
    (h₁ : scanWindow bgW sW ≠ [])
    (h₂ : ∃ x ∈ scanWindow bgW sW, -1 < columnScore grid bgH sliderY sH x) :
    findGapWithHighAccuracy grid bgW bgH sW sH sliderY ∈ scanWindow bgW sW ∧
    (∀ x ∈ scanWindow bgW sW, columnScore grid bgH sliderY sH x ≤
      columnScore grid bgH sliderY sH (findGapWithHighAccuracy grid bgW bgH sW sH sliderY)) ∧
    (∀ x ∈ scanWindow bgW sW,
      columnScore grid bgH sliderY sH x =
        columnScore grid bgH sliderY sH (findGapWithHighAccuracy grid bgW bgH sW sH sliderY) →
      findGapWithHighAccuracy grid bgW bgH sW sH sliderY ≤ x) := by
  obtain ⟨hmem, hmax, hleft⟩ := findGap_mem_max grid bgW bgH sW sH sliderY h₁
  refine ⟨hmem, hmax, ?_⟩
  intro x hx heq
  by_contra hcon
  push_neg at hcon
  have := hleft x hx hcon
  omega

/-- C3 (witness): the argmax property instantiated on a small uniform grid
with one darkened column (column 9 of a 20-wide grid, `sW = 2`). -/
theorem leftmost_argmax_witness :
    findGapWithHighAccuracy (fun x _ => if x = 9 then 100 else 200) 20 5 2 3 0 ∈
      scanWindow 20 2 ∧
    (∀ x ∈ scanWindow 20 2, columnScore (fun x _ => if x = 9 then 100 else 200) 5 0 3 x ≤
      columnScore (fun x _ => if x = 9 then 100 else 200) 5 0 3
        (findGapWithHighAccuracy (fun x _ => if x = 9 then 100 else 200) 20 5 2 3 0)) ∧
    (∀ x ∈ scanWindow 20 2,
      columnScore (fun x _ => if x = 9 then 100 else 200) 5 0 3 x =
        columnScore (fun x _ => if x = 9 then 100 else 200) 5 0 3
          (findGapWithHighAccuracy (fun x _ => if x = 9 then 100 else 200) 20 5 2 3 0) →
      findGapWithHighAccuracy (fun x _ => if x = 9 then 100 else 200) 20 5 2 3 0 ≤ x) :=
  leftmost_argmax (fun x _ => if x = 9 then 100 else 200) 20 5 2 3 0 (by decide)
    ⟨7, by decide, by decide⟩

/-- C4: for every column `x`, the column score computed by the inner loop
equals the sum, over rows `y` in `[sliderY, sliderY + sH)` with `y < bgH`,
of `diff = intensity(x-1, y) - intensity(x, y)`, a row contributing `diff`
exactly when `diff > 15` and nothing otherwise. -/
theorem columnScore_eq_spec (grid : Grid) (bgH sliderY sH x : Nat) :
    columnScore grid bgH sliderY sH x = specColumnScore grid bgH sliderY sH x := by
  rw [columnScore_eq_sum_Ico, specColumnScore_eq_sum_Ico]

/-- C5: when `sliderY + sH > bgH` the call still completes (the embedding is
total) and rows at or beyond `bgH` are skipped: every column score equals
the score of the band truncated at `bgH`, and the result is unchanged under
any modification of the grid on rows `≥ bgH`. -/
theorem row_bound_safety (g₁ g₂ : Grid) (bgW bgH sW sH sliderY : Nat)
    (h : bgH < sliderY + sH)
    (hagree : ∀ x y, y < bgH → g₁ x y = g₂ x y) :
    (∀ x, columnScore g₁ bgH sliderY sH x =
      columnScore g₁ bgH sliderY (bgH - sliderY) x) ∧
    findGapWithHighAccuracy g₁ bgW bgH sW sH sliderY =
      findGapWithHighAccuracy g₂ bgW bgH sW sH sliderY := by
  refine ⟨?_, findGap_congr hagree bgW sW sH sliderY⟩
  intro x
  rw [columnScore_eq_sum_Ico, columnScore_eq_sum_Ico,
    ← Finset.sum_Ico_consecutive (rowContrib g₁ bgH x)
      (show sliderY ≤ sliderY + (bgH - sliderY) by omega)
      (show sliderY + (bgH - sliderY) ≤ sliderY + sH by omega)]
  have hz : Finset.sum (Finset.Ico (sliderY + (bgH - sliderY)) (sliderY + sH))
      (rowContrib g₁ bgH x) = 0 := by
    apply Finset.sum_eq_zero
    intro y hy
    rw [Finset.mem_Ico] at hy
    unfold rowContrib
    rw [if_pos (show bgH ≤ y by omega)]
  rw [hz, add_zero]

/-- C5 (witness): a band of height 5 starting at row 1 over an image of
height 3; the grid modified arbitrarily on rows `≥ 3` gives the same
result. -/
theorem row_bound_safety_witness :
    (∀ x, columnScore (fun _ _ => 200) 3 1 5 x =
      columnScore (fun _ _ => 200) 3 1 (3 - 1) x) ∧
    findGapWithHighAccuracy (fun _ _ => 200) 20 3 2 5 1 =
      findGapWithHighAccuracy (fun _ y => if y < 3 then 200 else 7) 20 3 2 5 1 :=
  row_bound_safety (fun _ _ => 200) (fun _ y => if y < 3 then 200 else 7) 20 3 2 5 1
    (by decide) (fun _ y hy => (if_pos hy).symm)

set_option maxRecDepth 200000 in
/-- C6: on the 100×50 scenario grid (`sW = 20`, `sH = 50`, `sliderY = 0`,
uniform brightness 200 except columns 60..79 at 60) the locator returns
`bestX = 60`, the left edge of the gap. -/
theorem scenario_uniform_gap :
    findGapWithHighAccuracy scenarioGrid 100 50 20 50 0 = 60 ∧
    columnScore scenarioGrid 50 0 50 60 = 7000 := by
  refine ⟨by decide, by decide⟩

set_option maxRecDepth 200000 in
/-- C7: with an additional single-pixel speck of brightness 0 at column 30,
row 10, the locator still returns `bestX = 60`: the gap column accumulates
`50 × 140 = 7000` while the noise column contributes only one row's
`200`. -/
theorem scenario_noise_speck :
    findGapWithHighAccuracy noisyGrid 100 50 20 50 0 = 60 ∧
    columnScore noisyGrid 50 0 50 60 = 7000 ∧
    columnScore noisyGrid 50 0 50 30 = 200 ∧
    columnScore noisyGrid 50 0 50 30 < columnScore noisyGrid 50 0 50 60 := by
  refine ⟨by decide, by decide, by decide, by decide⟩

/-- C8: the locator is deterministic and side-effect free.  The embedding is
a pure function, so two calls on identical inputs are the same value; this
theorem states the stronger extensional form: grids with identical pixel
data (even as distinct closures) yield identical `bestX`. -/
theorem findGap_deterministic (g₁ g₂ : Grid) (bgW bgH sW sH sliderY : Nat)
    (h : ∀ x y, g₁ x y = g₂ x y) :
    findGapWithHighAccuracy g₁ bgW bgH sW sH sliderY =
      findGapWithHighAccuracy g₂ bgW bgH sW sH sliderY := by
  have hg : g₁ = g₂ := funext (fun x => funext (fun y => h x y))
  rw [hg]

/-- C8 (witness): the scenario grid and an eta-expanded copy of it give the
same result. -/
theorem findGap_deterministic_witness :
    findGapWithHighAccuracy scenarioGrid 100 50 20 50 0 =
      findGapWithHighAccuracy (fun x y => scenarioGrid x y) 100 50 20 50 0 :=
  findGap_deterministic scenarioGrid (fun x y => scenarioGrid x y) 100 50 20 50 0
    (fun _ _ => rfl)

/-- C9: when the window is nonempty and every candidate column scores `0`,
the locator returns the first scanned column `sW + 5`, not `0`: the initial
`maxScore = -1` is strictly beaten by the first column's score `0`. -/
theorem allZero_returns_startX (grid : Grid) (bgW bgH sW sH sliderY : Nat)
    (h : scanWindow bgW sW ≠ [])
    (hz : ∀ x ∈ scanWindow bgW sW, columnScore grid bgH sliderY sH x = 0) :
    findGapWithHighAccuracy grid bgW bgH sW sH sliderY = sW + 5 ∧
    findGapWithHighAccuracy grid bgW bgH sW sH sliderY ≠ 0 := by
  have he := findGap_all_zero grid bgW bgH sW sH sliderY h hz
  omega

/-- C9 (witness): a uniform 30×6 grid with `sW = 4`, `sH = 2`, `sliderY = 1`
returns `4 + 5 = 9`. -/
theorem allZero_returns_startX_witness :
    findGapWithHighAccuracy (fun _ _ => 100) 30 6 4 2 1 = 4 + 5 ∧
    findGapWithHighAccuracy (fun _ _ => 100) 30 6 4 2 1 ≠ 0 :=
  allZero_returns_startX (fun _ _ => 100) 30 6 4 2 1 (by decide) (by decide)

/-- C10: a POST request with both image fields truthy but a falsy `sliderY`
(in particular `sliderY = 0`) is answered with the 400 Missing Parameter
response for `sliderY`, for every possible core `locate` — so the core is
never invoked with `sliderY = 0`. -/
theorem handler_rejects_falsy_sliderY
    (locate : String → String → Int → Nat) (req : SliderRequest)
    (hm : req.method = "POST")
    (hbg : jsStrFalsy req.bgBase64 = false)
    (hsl : jsStrFalsy req.sliderBase64 = false)
    (hY : jsNumFalsy req.sliderY = true) :
    handler locate req = HandlerResponse.missingParam "sliderY" := by
  unfold handler
  rw [if_neg (by simp [hm]), if_neg (by simp [hbg]), if_neg (by simp [hsl]),
    if_pos (by simp [hY])]

/-- C10 (witness): a concrete POST request with `sliderY = 0` is rejected
with the Missing Parameter response, under an arbitrary concrete core. -/
theorem handler_rejects_falsy_sliderY_witness :
    handler (fun _ _ _ => 42)
        (SliderRequest.mk "POST" (some "bg") (some "slider") (some 0)) =
      HandlerResponse.missingParam "sliderY" :=
  handler_rejects_falsy_sliderY (fun _ _ _ => 42)
    (SliderRequest.mk "POST" (some "bg") (some "slider") (some 0)) rfl rfl rfl rfl

end Slider
